import Mathlib

/-!
Shallow embedding of `src/view/prsTreeDataProvider.ts`
(class `PullRequestsTreeDataProvider`) from the repository
ThomsonTan/vscode-pull-request-github.

The orchestrator is modelled as a pure state-transition system: each
method of the class becomes a Lean function taking the provider state
(and an environment of external collaborators) and returning the result,
the successor state, and a trace of observable side effects.  External
collaborators (node constructors, per-node children resolution, the
configuration store, the result of `findDotComAndEnterpriseRemotes`)
enter as inputs in an `Env` record: only their results, not their code,
are relevant to the orchestrator logic under verification.
-/

namespace PRView

/-- States of the external repository manager
(`ReposManagerState` in `github/folderRepositoryManager.ts`). -/
inductive ReposManagerState where
  | Initializing
  | NeedsAuthentication
  | RepositoriesLoaded
deriving DecidableEq, Repr

/-- Pull request category types (`PRType` in `github/interface.ts`). -/
inductive PRType where
  | Query
  | All
  | LocalPullRequest
deriving DecidableEq, Repr

/-- Placeholder action kinds (`PRCategoryActionType` in
`view/treeNodes/categoryNode.ts`). -/
inductive PRCategoryActionType where
  | Empty
  | More
  | TryOtherRemotes
  | Login
  | NoRemotes
  | NoMatchingRemotes
  | ConfigureRemotes
  | LoginEnterprise
deriving DecidableEq, Repr

/-- Node kinds relevant to the orchestrator: workspace-folder nodes,
category nodes (carrying their `PRType`), and placeholder action nodes. -/
inductive NodeKind where
  | workspaceFolder
  | category (t : PRType)
  | action (a : PRCategoryActionType)
deriving DecidableEq, Repr

/-- A tree node as the orchestrator sees it: a stable string identity
(`element.id`, used for expansion persistence and dispose tracking), a
kind, and the set of pull request numbers for which the external
`expandPullRequest` member of this node reports a match. -/
structure TreeNode where
  id : String
  kind : NodeKind
  prs : List Nat
deriving DecidableEq, Repr

/-- Constructor call `new PRCategoryActionNode(this, a)`: a fresh
placeholder node of the given action kind. -/
def actionNode (a : PRCategoryActionType) : TreeNode :=
  { id := "action", kind := NodeKind.action a, prs := [] }

/-- One folder repository manager (`FolderRepositoryManager`):
`rootUri` is `repository.rootUri`, `githubRemotes` the result of
`getGitHubRemotes()`, and `nativeRemotes` is `repository.state.remotes`. -/
structure FolderManager where
  rootUri : String
  githubRemotes : List String
  nativeRemotes : List String
deriving DecidableEq, Repr, Inhabited

/-- The external `RepositoriesManager`: its readiness state, its folder
managers, and the answer of
`credentialStore.isAuthenticated(AuthProvider.githubEnterprise)`. -/
structure RepositoriesManager where
  state : ReposManagerState
  folderManagers : List FolderManager
  isEnterpriseAuthenticated : Bool
deriving DecidableEq, Repr

/-- A subscription pushed onto `this._disposables` during `initialize`. -/
inductive Subscription where
  | stateChange
  | folderRepos (i : Nat)
  | reviewModelFileChanges (i : Nat)
  | notificationProvider
  | queriesConfiguration
deriving DecidableEq, Repr

/-- Observable side effects of the orchestrator methods. -/
inductive Effect where
  | disposeNode (id : String)
  | rootsStored
  | setLoadingContext
  | gateInvoked
  | fireChangeEvent (target : Option String)
  | updateCheckbox (id : String) (newState : Bool)
deriving DecidableEq, Repr

/-- The mutable fields of `PullRequestsTreeDataProvider` that the claims
are about: `_children`, `_initialized`, `_reposManager`,
`_disposables`. -/
structure ProviderState where
  children : List TreeNode
  initialized : Bool
  reposManager : Option RepositoriesManager
  disposables : List Subscription
deriving DecidableEq, Repr

/-- External collaborators, given by their results: the
`githubPullRequests.remotes` configuration value, the
`enterpriseRemotes` component returned by
`findDotComAndEnterpriseRemotes(folderManagers)`, the node constructors
`WorkspaceFolderNode.getCategoryTreeNodes` (which returns category
nodes) and `new WorkspaceFolderNode(...)`, and the per-node
`getChildren` / `cachedChildren` resolutions. -/
structure Env where
  remotesSetting : Option (List String)
  enterpriseRemotes : List String
  categoryTreeNodes : FolderManager → List TreeNode
  workspaceFolderNode : FolderManager → TreeNode
  elementChildren : TreeNode → List TreeNode
  elementCachedChildren : TreeNode → List TreeNode

/-- The Remote-Readiness Gate, `needsRemotes()` (lines 211-234).
Returns the ordered placeholder list.  When `this._reposManager` is
absent, optional chaining makes the state test false and the
`enterpriseRemotes` destructuring falls back to the empty list. -/
def needsRemotes (rm : Option RepositoriesManager)
    (remotesSetting : Option (List String))
    (enterpriseRemotes : List String) : List TreeNode :=
  if rm.map RepositoriesManager.state
       = some ReposManagerState.NeedsAuthentication then
    []
  else
    let actions : List TreeNode :=
      match remotesSetting with
      | some _ => [actionNode PRCategoryActionType.NoMatchingRemotes,
                   actionNode PRCategoryActionType.ConfigureRemotes]
      | none => [actionNode PRCategoryActionType.NoRemotes]
    let er : List String :=
      match rm with
      | none => []
      | some _ => enterpriseRemotes
    let authed : Bool :=
      match rm with
      | none => false
      | some m => m.isEnterpriseAuthenticated
    if 0 < er.length ∧ authed = false then
      actions ++ [actionNode PRCategoryActionType.LoginEnterprise]
    else
      actions

/-- Construction of a fresh root set in the no-element branch of
`getChildren` (lines 263-286): one folder manager yields the category
nodes of that folder directly; several yield one workspace-folder node
per folder manager. -/
def rootConstruction (env : Env) (rm : RepositoriesManager) : List TreeNode :=
  match rm.folderManagers with
  | [fm] => env.categoryTreeNodes fm
  | fms => fms.map env.workspaceFolderNode

/-- Result of a `getChildren` call: the returned nodes, the successor
provider state, and the trace of side effects in order. -/
structure GetChildrenResult where
  result : List TreeNode
  state : ProviderState
  effects : List Effect
deriving DecidableEq, Repr

/-- `getChildren(element?)` (lines 243-299), translated branch by
branch in source order:
1. no repositories manager, or zero folder managers → empty;
2. manager state `Initializing` → empty, loading context flag set;
3. no folder manager with a GitHub remote → the Remote-Readiness Gate;
4. no element → dispose every previous root node, then store and return
   a freshly constructed root set;
5. element given, and no folder repository with a native remote → a
   single `Empty` placeholder;
6. otherwise → delegate to the element. -/
def getChildren (env : Env) (s : ProviderState) (element : Option TreeNode) :
    GetChildrenResult :=
  match s.reposManager with
  | none => ⟨[], s, []⟩
  | some rm =>
    if rm.folderManagers.length = 0 then
      ⟨[], s, []⟩
    else if rm.state = ReposManagerState.Initializing then
      ⟨[], s, [Effect.setLoadingContext]⟩
    else if (rm.folderManagers.filter
        (fun m => 0 < m.githubRemotes.length)).length = 0 then
      ⟨needsRemotes (some rm) env.remotesSetting env.enterpriseRemotes, s,
        [Effect.gateInvoked]⟩
    else
      match element with
      | none =>
        let result := rootConstruction env rm
        ⟨result, { s with children := result },
          s.children.map (fun n => Effect.disposeNode n.id)
            ++ [Effect.rootsStored]⟩
      | some el =>
        if (rm.folderManagers.filter
            (fun m => 0 < m.nativeRemotes.length)).length = 0 then
          ⟨[actionNode PRCategoryActionType.Empty], s, []⟩
        else
          ⟨env.elementChildren el, s, []⟩

/-- `cachedChildren(element?)` (lines 236-241): the stored root set for
the root request, the element-owned cache otherwise; never fetches. -/
def cachedChildren (env : Env) (s : ProviderState) (element : Option TreeNode) :
    List TreeNode :=
  match element with
  | none => s.children
  | some el => env.elementCachedChildren el

/-- The `initialize` method (lines 154-184; the name is shortened here).
It throws synchronously when `_initialized` is already set, before
touching any field; on success it sets the flag, stores the manager,
pushes the subscriptions (manager state changes, one per folder manager
for repository changes, one per review model for local file changes,
the notification provider, and the queries-configuration listener added
by `initializeCategories`), and ends with a full `refresh()`, which
fires the change event.  The returned state is the post-call state: on
the throwing path it is the input state unchanged. -/
def initProvider (s : ProviderState) (rm : RepositoriesManager)
    (reviewModelCount : Nat) :
    ProviderState × Except String (List Effect) :=
  if s.initialized then
    (s, Except.error "Tree has already been initialized!")
  else
    let subs : List Subscription :=
      Subscription.stateChange
        :: (List.range rm.folderManagers.length).map Subscription.folderRepos
        ++ (List.range reviewModelCount).map Subscription.reviewModelFileChanges
        ++ [Subscription.notificationProvider,
            Subscription.queriesConfiguration]
    ({ s with initialized := true,
              reposManager := some rm,
              disposables := s.disposables ++ subs },
      Except.ok [Effect.fireChangeEvent none])

/-- JavaScript `Set.add` on the insertion-ordered list view of a set:
append the element unless it is already present. -/
def setAdd (l : List String) (x : String) : List String :=
  if x ∈ l then l else l ++ [x]

/-- JavaScript `Set.delete` on the list view: remove the element. -/
def setDelete (l : List String) (x : String) : List String :=
  l.filter (fun y => y ≠ x)

/-- `new Set(array)`: deduplicate keeping first occurrences, in order. -/
def loadSet (l : List String) : List String :=
  l.foldl setAdd []

/-- The expand/collapse persistence handler `_updateExpandedQueries`
(lines 121-131): only category nodes are tracked; the persisted array
is read back into a set, the element identity added or deleted, and the
set written back as an array. -/
def updateExpandedQueries (persisted : List String) (element : TreeNode)
    (isExpanded : Bool) : List String :=
  match element.kind with
  | NodeKind.category _ =>
    let expandedQueries := loadSet persisted
    if isExpanded then
      setAdd expandedQueries element.id
    else
      setDelete expandedQueries element.id
  | _ => persisted

/-- The loop body of `expandPullRequest` (lines 137-147): walk the root
children in order; a workspace-folder node is delegated into, as is a
category node of type `All`; any other child is skipped.  Returns the
identities delegated into, in order, and the identity of the first
matching node, if any. -/
def searchRoots (pr : Nat) : List TreeNode → List String × Option String
  | [] => ([], none)
  | c :: rest =>
    match c.kind with
    | NodeKind.workspaceFolder =>
      if c.prs.contains pr then
        ([c.id], some c.id)
      else
        let r := searchRoots pr rest
        (c.id :: r.1, r.2)
    | NodeKind.category t =>
      if t = PRType.All then
        if c.prs.contains pr then
          ([c.id], some c.id)
        else
          let r := searchRoots pr rest
          (c.id :: r.1, r.2)
      else
        searchRoots pr rest
    | _ => searchRoots pr rest

/-- Whether the walk of `expandPullRequest` matches a root child: it is
delegated into (workspace folder, or category of type `All`) and its
own `expandPullRequest` reports the target. -/
def nodeMatches (c : TreeNode) (pr : Nat) : Bool :=
  match c.kind with
  | NodeKind.workspaceFolder => c.prs.contains pr
  | NodeKind.category t =>
    if t = PRType.All then c.prs.contains pr else false
  | _ => false

/-- Outcome of an `expandPullRequest` call: how many root `getChildren`
fetches it performed, the identities delegated into in order, and the
first match, if any. -/
structure ExpandOutcome where
  rootFetches : Nat
  visited : List String
  found : Option String
deriving DecidableEq, Repr

/-- `expandPullRequest(pullRequest)` (lines 133-148): when the stored
root set is empty, first perform one root `getChildren` fetch; then
walk `this._children` (as updated by that fetch) in order.  A missing
match is not an error: the method simply returns. -/
def expandPullRequest (env : Env) (s : ProviderState) (pr : Nat) :
    ProviderState × ExpandOutcome :=
  if s.children.length = 0 then
    let r := getChildren env s none
    let w := searchRoots pr r.state.children
    (r.state, ⟨1, w.1, w.2⟩)
  else
    let w := searchRoots pr s.children
    (s, ⟨0, w.1, w.2⟩)

/-- The `onDidChangeCheckboxState` handler (lines 105-111): call
`updateFromCheckboxChanged(newState)` on each listed node in batch
order; nothing else, in particular no change-event fire. -/
def onDidChangeCheckboxState (items : List (TreeNode × Bool)) : List Effect :=
  items.map (fun p => Effect.updateCheckbox p.1.id p.2)

/-! Helper lemmas about the JavaScript-set model. -/

theorem setAdd_of_mem {l : List String} {x : String} (h : x ∈ l) :
    setAdd l x = l := by
  unfold setAdd
  exact if_pos h

theorem setAdd_of_not_mem {l : List String} {x : String} (h : x ∉ l) :
    setAdd l x = l ++ [x] := by
  unfold setAdd
  exact if_neg h

theorem mem_setAdd {l : List String} {x y : String} :
    y ∈ setAdd l x ↔ y ∈ l ∨ y = x := by
  unfold setAdd
  by_cases h : x ∈ l
  · rw [if_pos h]
    constructor
    · exact Or.inl
    · rintro (hy | rfl)
      · exact hy
      · exact h
  · rw [if_neg h]
    simp

theorem nodup_setAdd {l : List String} {x : String} (h : l.Nodup) :
    (setAdd l x).Nodup := by
  unfold setAdd
  by_cases hx : x ∈ l
  · rwa [if_pos hx]
  · rw [if_neg hx]
    simp [List.nodup_append, h, hx]

theorem mem_setDelete {l : List String} {x y : String} :
    y ∈ setDelete l x ↔ y ∈ l ∧ y ≠ x := by
  unfold setDelete
  simp

theorem mem_foldl_setAdd (l acc : List String) (y : String) :
    y ∈ l.foldl setAdd acc ↔ y ∈ acc ∨ y ∈ l := by
  induction l generalizing acc with
  | nil => simp
  | cons x xs ih =>
    rw [List.foldl_cons, ih]
    simp only [mem_setAdd, List.mem_cons]
    tauto

theorem mem_loadSet {l : List String} {y : String} :
    y ∈ loadSet l ↔ y ∈ l := by
  unfold loadSet
  rw [mem_foldl_setAdd]
  simp

theorem nodup_foldl_setAdd (l : List String) (acc : List String)
    (h : acc.Nodup) : (l.foldl setAdd acc).Nodup := by
  induction l generalizing acc with
  | nil => simpa
  | cons x xs ih =>
    rw [List.foldl_cons]
    exact ih _ (nodup_setAdd h)

theorem nodup_loadSet (l : List String) : (loadSet l).Nodup :=
  nodup_foldl_setAdd l [] List.nodup_nil

theorem foldl_setAdd_of_disjoint (l : List String) :
    ∀ acc : List String, l.Nodup → (∀ x ∈ l, x ∉ acc) →
      l.foldl setAdd acc = acc ++ l := by
  induction l with
  | nil => simp
  | cons x xs ih =>
    intro acc hn hdisj
    have hx : x ∉ acc := hdisj x (List.mem_cons_self x xs)
    rw [List.foldl_cons, setAdd_of_not_mem hx,
      ih (acc ++ [x]) (List.Nodup.of_cons hn) ?_]
    · simp
    · intro z hz
      simp only [List.mem_append, List.mem_singleton]
      rintro (hza | rfl)
      · exact hdisj z (List.mem_cons_of_mem x hz) hza
      · exact (List.nodup_cons.mp hn).1 hz

theorem loadSet_of_nodup {l : List String} (h : l.Nodup) : loadSet l = l := by
  unfold loadSet
  rw [foldl_setAdd_of_disjoint l [] h (by simp)]
  simp

/-! Helper lemma about the walk of `expandPullRequest`. -/

theorem searchRoots_found (pr : Nat) (l : List TreeNode) :
    (searchRoots pr l).2
      = (l.find? (fun c => nodeMatches c pr)).map TreeNode.id := by
  induction l with
  | nil => rfl
  | cons c rest ih =>
    obtain ⟨cid, ck, cprs⟩ := c
    cases ck with
    | workspaceFolder =>
      by_cases hc : pr ∈ cprs
      · simp [searchRoots, nodeMatches, List.find?_cons, hc]
      · simp [searchRoots, nodeMatches, List.find?_cons, hc, ih]
    | category t =>
      by_cases ht : t = PRType.All
      · subst ht
        by_cases hc : pr ∈ cprs
        · simp [searchRoots, nodeMatches, List.find?_cons, hc]
        · simp [searchRoots, nodeMatches, List.find?_cons, hc, ih]
      · simp [searchRoots, nodeMatches, List.find?_cons, ht, ih]
    | action a =>
      simp [searchRoots, nodeMatches, List.find?_cons, ih]

/-! Concrete fixtures used by witnesses and counterexamples. -/

/-- A folder manager with a usable GitHub remote. -/
def fmA : FolderManager :=
  { rootUri := "file:///a", githubRemotes := ["origin"],
    nativeRemotes := ["origin"] }

/-- A folder manager with no remotes at all. -/
def fmB : FolderManager :=
  { rootUri := "file:///b", githubRemotes := [], nativeRemotes := [] }

/-- A loaded repositories manager over two folders. -/
def rmLoaded : RepositoriesManager :=
  { state := ReposManagerState.RepositoriesLoaded,
    folderManagers := [fmA, fmB],
    isEnterpriseAuthenticated := false }

/-- A sample environment of external collaborators. -/
def sampleEnv : Env :=
  { remotesSetting := none,
    enterpriseRemotes := [],
    categoryTreeNodes := fun _ =>
      [{ id := "category:All", kind := NodeKind.category PRType.All,
         prs := [7] }],
    workspaceFolderNode := fun fm =>
      { id := fm.rootUri, kind := NodeKind.workspaceFolder, prs := [7] },
    elementChildren := fun _ => [],
    elementCachedChildren := fun _ => [] }

/-- A provider state holding two previously stored root nodes. -/
def sOld : ProviderState :=
  { children :=
      [{ id := "old:1", kind := NodeKind.category PRType.All, prs := [] },
       { id := "old:2", kind := NodeKind.category PRType.Query, prs := [] }],
    initialized := true,
    reposManager := some rmLoaded,
    disposables := [] }

/-- A provider state whose repositories manager was never set. -/
def sNoMgr : ProviderState :=
  { children := [], initialized := false, reposManager := none,
    disposables := [] }

/-- A provider state with an empty, not yet materialized root set. -/
def sEmpty : ProviderState :=
  { children := [], initialized := true, reposManager := some rmLoaded,
    disposables := [] }

/-! Claim theorems. -/

/-- C7: when no repositories manager is set, or it has zero folder
managers, `getChildren` returns the empty sequence for every element
(including the root request), the state is untouched, and the effect
trace is empty — in particular the Remote-Readiness Gate is never
invoked (no `gateInvoked` effect) and no placeholder node is
produced. -/
theorem getChildren_no_folder_managers_empty (env : Env) (s : ProviderState)
    (h : s.reposManager = none
      ∨ ∃ rm, s.reposManager = some rm ∧ rm.folderManagers.length = 0) :
    ∀ element, getChildren env s element = ⟨[], s, []⟩ := by
  intro element
  rcases h with h | ⟨rm, hrm, hlen⟩
  · simp [getChildren, h]
  · simp [getChildren, hrm, hlen]

/-- Witness for C7 at a concrete state with no repositories manager. -/
theorem getChildren_no_folder_managers_empty_witness :
    getChildren sampleEnv sNoMgr none = ⟨[], sNoMgr, []⟩ :=
  getChildren_no_folder_managers_empty sampleEnv sNoMgr (Or.inl rfl) none

/-- C6: with folder managers configured and the manager state
`Initializing`, `getChildren` returns the empty sequence with the
loading-context flag set as its only side effect, for every element.
The statement quantifies over all remote configurations, including
those where every folder manager has zero GitHub remotes, so the
`Initializing` check takes precedence over the zero-GitHub-remotes
placeholder check. -/
theorem getChildren_initializing_empty_sets_loading (env : Env)
    (s : ProviderState) (rm : RepositoriesManager)
    (hrm : s.reposManager = some rm)
    (hlen : rm.folderManagers.length ≠ 0)
    (hstate : rm.state = ReposManagerState.Initializing) :
    ∀ element,
      getChildren env s element = ⟨[], s, [Effect.setLoadingContext]⟩ := by
  intro element
  simp [getChildren, hrm, hlen, hstate]

/-- Witness for C6: one folder manager with zero GitHub remotes while
the manager is initializing still yields the loading branch. -/
theorem getChildren_initializing_empty_sets_loading_witness :
    getChildren sampleEnv
      { children := [], initialized := true,
        reposManager := some
          { state := ReposManagerState.Initializing,
            folderManagers := [fmB], isEnterpriseAuthenticated := false },
        disposables := [] } none
      = ⟨[],
         { children := [], initialized := true,
           reposManager := some
             { state := ReposManagerState.Initializing,
               folderManagers := [fmB], isEnterpriseAuthenticated := false },
           disposables := [] },
         [Effect.setLoadingContext]⟩ :=
  getChildren_initializing_empty_sets_loading sampleEnv _ _ rfl
    (by decide) rfl none

/-- C10: the checkbox handler forwards `updateFromCheckboxChanged` to
each listed node in batch order and its effect trace never contains a
change-event fire, so a checkbox toggle alone never triggers a tree
refresh at the orchestrator level. -/
theorem checkbox_handler_updates_in_order_no_refresh
    (items : List (TreeNode × Bool)) :
    onDidChangeCheckboxState items
      = items.map (fun p => Effect.updateCheckbox p.1.id p.2)
  ∧ ∀ t, Effect.fireChangeEvent t ∉ onDidChangeCheckboxState items := by
  refine ⟨rfl, ?_⟩
  intro t ht
  simp only [onDidChangeCheckboxState, List.mem_map] at ht
  obtain ⟨p, _, hp⟩ := ht
  exact Effect.noConfusion hp

/-- C1: a root `getChildren` call that reaches the root-reconstruction
branch first emits one dispose per previously stored root node — in
stored order, each exactly once when the stored identities are distinct
— and only then stores and returns the fresh root set.  The returned
and stored array is `rootConstruction env rm`, a value built solely
from the folder managers and the node constructors, so the current
root array is replaced, never mutated in place. -/
theorem getChildren_root_disposes_prev_once_then_replaces (env : Env)
    (s : ProviderState) (rm : RepositoriesManager)
    (hrm : s.reposManager = some rm)
    (hlen : rm.folderManagers.length ≠ 0)
    (hstate : rm.state ≠ ReposManagerState.Initializing)
    (hremotes : (rm.folderManagers.filter
        (fun m => 0 < m.githubRemotes.length)).length ≠ 0)
    (hnodup : (s.children.map TreeNode.id).Nodup) :
    (getChildren env s none).effects
      = s.children.map (fun n => Effect.disposeNode n.id)
          ++ [Effect.rootsStored]
  ∧ (∀ n ∈ s.children,
      (getChildren env s none).effects.count (Effect.disposeNode n.id) = 1)
  ∧ (getChildren env s none).result = rootConstruction env rm
  ∧ (getChildren env s none).state.children = rootConstruction env rm := by
  have hred : getChildren env s none
      = ⟨rootConstruction env rm,
         { s with children := rootConstruction env rm },
         s.children.map (fun n => Effect.disposeNode n.id)
           ++ [Effect.rootsStored]⟩ := by
    simp [getChildren, hrm, hlen, hstate, hremotes]
  refine ⟨by rw [hred], ?_, by rw [hred], by rw [hred]⟩
  intro n hn
  rw [hred]
  have hmap : s.children.map (fun n => Effect.disposeNode n.id)
      = (s.children.map TreeNode.id).map Effect.disposeNode := by
    rw [List.map_map]
    rfl
  have hinj : Function.Injective Effect.disposeNode := by
    intro a b hab
    injection hab
  simp only [List.count_append, hmap]
  rw [List.count_map_of_injective _ Effect.disposeNode hinj n.id,
    List.count_eq_one_of_mem hnodup (List.mem_map_of_mem TreeNode.id hn)]
  simp

/-- Witness for C1: two previously stored roots with distinct
identities are disposed in order, exactly once each, and the stored
array becomes the freshly constructed root set. -/
theorem getChildren_root_disposes_prev_once_then_replaces_witness :
    (getChildren sampleEnv sOld none).effects
      = sOld.children.map (fun n => Effect.disposeNode n.id)
          ++ [Effect.rootsStored]
  ∧ (∀ n ∈ sOld.children,
      (getChildren sampleEnv sOld none).effects.count
        (Effect.disposeNode n.id) = 1)
  ∧ (getChildren sampleEnv sOld none).result
      = rootConstruction sampleEnv rmLoaded
  ∧ (getChildren sampleEnv sOld none).state.children
      = rootConstruction sampleEnv rmLoaded :=
  getChildren_root_disposes_prev_once_then_replaces sampleEnv sOld rmLoaded
    rfl (by decide) (by decide) (by decide) (by decide)

/-- C9: when a root `getChildren` call takes the zero-GitHub-remotes
placeholder path, the provider state — in particular the previously
stored root set — is neither disposed (no dispose effect occurs) nor
replaced, and a subsequent `cachedChildren` call with no element still
returns the old root set rather than the placeholders just handed to
the host. -/
theorem gate_path_preserves_stored_roots (env : Env) (s : ProviderState)
    (rm : RepositoriesManager)
    (hrm : s.reposManager = some rm)
    (hlen : rm.folderManagers.length ≠ 0)
    (hstate : rm.state ≠ ReposManagerState.Initializing)
    (hzero : (rm.folderManagers.filter
        (fun m => 0 < m.githubRemotes.length)).length = 0) :
    (getChildren env s none).state = s
  ∧ (∀ i, Effect.disposeNode i ∉ (getChildren env s none).effects)
  ∧ cachedChildren env (getChildren env s none).state none = s.children := by
  have hred : getChildren env s none
      = ⟨needsRemotes (some rm) env.remotesSetting env.enterpriseRemotes, s,
         [Effect.gateInvoked]⟩ := by
    simp [getChildren, hrm, hlen, hstate, hzero]
  refine ⟨by rw [hred], ?_, by rw [hred]; rfl⟩
  intro i hi
  rw [hred] at hi
  simp at hi

/-- A loaded repositories manager whose single folder has no GitHub
remote, so a call lands on the Remote-Readiness Gate path. -/
def rmNoGitHub : RepositoriesManager :=
  { state := ReposManagerState.RepositoriesLoaded,
    folderManagers := [fmB],
    isEnterpriseAuthenticated := false }

/-- The stored-roots state `sOld`, rewired to `rmNoGitHub`. -/
def sOldNoGitHub : ProviderState :=
  { sOld with reposManager := some rmNoGitHub }

/-- Witness for C9: a stored root set survives a gate-path call. -/
theorem gate_path_preserves_stored_roots_witness :
    (getChildren sampleEnv sOldNoGitHub none).state = sOldNoGitHub
  ∧ (∀ i, Effect.disposeNode i ∉
      (getChildren sampleEnv sOldNoGitHub none).effects)
  ∧ cachedChildren sampleEnv
      (getChildren sampleEnv sOldNoGitHub none).state none
      = sOldNoGitHub.children :=
  gate_path_preserves_stored_roots sampleEnv sOldNoGitHub rmNoGitHub rfl
    (by decide) (by decide) (by decide)

/-- C4: after a first successful `initialize` call, a second call
throws the fatal double-initialization error synchronously, and the
throw happens before any mutation — the subscriptions pushed by the
first call, the stored repositories manager, and the current root set
are returned exactly as they were. -/
theorem initProvider_second_call_throws_without_mutation
    (s : ProviderState) (rm1 rm2 : RepositoriesManager) (n1 n2 : Nat)
    (h : s.initialized = false) :
    (∃ effs, (initProvider s rm1 n1).2 = Except.ok effs)
  ∧ initProvider (initProvider s rm1 n1).1 rm2 n2
      = ((initProvider s rm1 n1).1,
         Except.error "Tree has already been initialized!") := by
  constructor
  · exact ⟨[Effect.fireChangeEvent none], by simp [initProvider, h]⟩
  · simp [initProvider, h]

/-- Witness for C4 at a fresh provider state. -/
theorem initProvider_second_call_throws_without_mutation_witness :
    (∃ effs, (initProvider sNoMgr rmLoaded 1).2 = Except.ok effs)
  ∧ initProvider (initProvider sNoMgr rmLoaded 1).1 rmLoaded 2
      = ((initProvider sNoMgr rmLoaded 1).1,
         Except.error "Tree has already been initialized!") :=
  initProvider_second_call_throws_without_mutation sNoMgr rmLoaded rmLoaded
    1 2 (by decide)

/-- C2: a `getChildren` call on which no folder manager has any GitHub
remote lands on the Remote-Readiness Gate, and the gate returns exactly
the policy list: empty when the manager state is `NeedsAuthentication`;
`[NoMatchingRemotes, ConfigureRemotes]` when a remotes allowlist
setting is present and `[NoRemotes]` otherwise; with `LoginEnterprise`
appended as the last element exactly when an enterprise remote exists
and enterprise authentication is not established — so allowlist plus
enterprise remote plus missing enterprise auth yields exactly
`[NoMatchingRemotes, ConfigureRemotes, LoginEnterprise]` in order. -/
theorem needsRemotes_gate_policy (env : Env) (s : ProviderState)
    (rm : RepositoriesManager) (element : Option TreeNode)
    (hrm : s.reposManager = some rm)
    (hlen : rm.folderManagers.length ≠ 0)
    (hstate : rm.state ≠ ReposManagerState.Initializing)
    (hzero : (rm.folderManagers.filter
        (fun m => 0 < m.githubRemotes.length)).length = 0) :
    (getChildren env s element).result
      = needsRemotes (some rm) env.remotesSetting env.enterpriseRemotes
  ∧ (rm.state = ReposManagerState.NeedsAuthentication →
      needsRemotes (some rm) env.remotesSetting env.enterpriseRemotes = [])
  ∧ (rm.state ≠ ReposManagerState.NeedsAuthentication →
      env.enterpriseRemotes = [] ∨ rm.isEnterpriseAuthenticated = true →
      needsRemotes (some rm) env.remotesSetting env.enterpriseRemotes
        = match env.remotesSetting with
          | some _ => [actionNode PRCategoryActionType.NoMatchingRemotes,
                       actionNode PRCategoryActionType.ConfigureRemotes]
          | none => [actionNode PRCategoryActionType.NoRemotes])
  ∧ (rm.state ≠ ReposManagerState.NeedsAuthentication →
      env.enterpriseRemotes ≠ [] → rm.isEnterpriseAuthenticated = false →
      needsRemotes (some rm) env.remotesSetting env.enterpriseRemotes
        = (match env.remotesSetting with
           | some _ => [actionNode PRCategoryActionType.NoMatchingRemotes,
                        actionNode PRCategoryActionType.ConfigureRemotes]
           | none => [actionNode PRCategoryActionType.NoRemotes])
          ++ [actionNode PRCategoryActionType.LoginEnterprise])
  ∧ (rm.state ≠ ReposManagerState.NeedsAuthentication →
      (∃ l, env.remotesSetting = some l) →
      env.enterpriseRemotes ≠ [] → rm.isEnterpriseAuthenticated = false →
      needsRemotes (some rm) env.remotesSetting env.enterpriseRemotes
        = [actionNode PRCategoryActionType.NoMatchingRemotes,
           actionNode PRCategoryActionType.ConfigureRemotes,
           actionNode PRCategoryActionType.LoginEnterprise]) := by
  refine ⟨?_, ?_, ?_, ?_, ?_⟩
  · simp [getChildren, hrm, hlen, hstate, hzero]
  · intro h
    simp [needsRemotes, h]
  · intro h hcase
    rcases hcase with he | ha
    · cases hset : env.remotesSetting <;>
        simp [needsRemotes, h, he, hset]
    · cases hset : env.remotesSetting <;>
        simp [needsRemotes, h, ha, hset]
  · intro h he ha
    have hpos : 0 < env.enterpriseRemotes.length := List.length_pos.mpr he
    cases hset : env.remotesSetting <;>
      simp [needsRemotes, h, ha, hset, hpos]
  · intro h hl he ha
    obtain ⟨l, hset⟩ := hl
    have hpos : 0 < env.enterpriseRemotes.length := List.length_pos.mpr he
    simp [needsRemotes, h, ha, hset, hpos]

/-- An environment with an allowlist setting and one enterprise
remote. -/
def envEnterprise : Env :=
  { sampleEnv with
      remotesSetting := some ["upstream"],
      enterpriseRemotes := ["ghe.example.com"] }

/-- The empty-roots state rewired to `rmNoGitHub`. -/
def sGateEnterprise : ProviderState :=
  { sEmpty with reposManager := some rmNoGitHub }

/-- Witness for C2: allowlist setting, one enterprise remote, no
enterprise authentication — exactly the three placeholders, in
order. -/
theorem needsRemotes_gate_policy_witness :
    (getChildren envEnterprise sGateEnterprise none).result
      = [actionNode PRCategoryActionType.NoMatchingRemotes,
         actionNode PRCategoryActionType.ConfigureRemotes,
         actionNode PRCategoryActionType.LoginEnterprise] := by
  have h := needsRemotes_gate_policy envEnterprise sGateEnterprise
    rmNoGitHub none rfl (by decide) (by decide) (by decide)
  exact h.1.trans (h.2.2.2.2 (by decide) ⟨_, rfl⟩ (by decide) rfl)

/-- A repositories manager whose single folder has a GitHub remote but
no native repository remote. -/
def rmC3 : RepositoriesManager :=
  { state := ReposManagerState.RepositoriesLoaded,
    folderManagers :=
      [{ rootUri := "file:///c", githubRemotes := ["origin"],
         nativeRemotes := [] }],
    isEnterpriseAuthenticated := true }

/-- Provider state over `rmC3` with no stored roots. -/
def sC3 : ProviderState :=
  { children := [], initialized := true, reposManager := some rmC3,
    disposables := [] }

/-- Counterexample to C3 as stated: with no element and every folder
repository holding zero native remotes (all other gates passed), the
call does not return the `Empty` placeholder — the no-element branch
returns the freshly constructed root set before the native-remotes
check is ever reached. -/
theorem empty_placeholder_requires_element_counterexample :
    sC3.reposManager = some rmC3
  ∧ rmC3.folderManagers.length ≠ 0
  ∧ rmC3.state ≠ ReposManagerState.Initializing
  ∧ (rmC3.folderManagers.filter
      (fun m => 0 < m.githubRemotes.length)).length ≠ 0
  ∧ (rmC3.folderManagers.filter
      (fun m => 0 < m.nativeRemotes.length)).length = 0
  ∧ (getChildren sampleEnv sC3 none).result
      ≠ [actionNode PRCategoryActionType.Empty] := by
  decide

/-- C3 as amended: the zero-native-remotes check runs only on calls
that carry an element; such a call returns a single `Empty`
placeholder instead of delegating to the element, leaving the state
untouched. -/
theorem empty_placeholder_on_element_call (env : Env) (s : ProviderState)
    (rm : RepositoriesManager) (el : TreeNode)
    (hrm : s.reposManager = some rm)
    (hlen : rm.folderManagers.length ≠ 0)
    (hstate : rm.state ≠ ReposManagerState.Initializing)
    (hgh : (rm.folderManagers.filter
        (fun m => 0 < m.githubRemotes.length)).length ≠ 0)
    (hnative : (rm.folderManagers.filter
        (fun m => 0 < m.nativeRemotes.length)).length = 0) :
    getChildren env s (some el)
      = ⟨[actionNode PRCategoryActionType.Empty], s, []⟩ := by
  simp [getChildren, hrm, hlen, hstate, hgh, hnative]

/-- A plain category element used as the delegation target. -/
def elQuery : TreeNode :=
  { id := "query:assigned", kind := NodeKind.category PRType.Query,
    prs := [] }

/-- Witness for the amended C3. -/
theorem empty_placeholder_on_element_call_witness :
    getChildren sampleEnv sC3 (some elQuery)
      = ⟨[actionNode PRCategoryActionType.Empty], sC3, []⟩ :=
  empty_placeholder_on_element_call sampleEnv sC3 rmC3 elQuery rfl
    (by decide) (by decide) (by decide) (by decide)

/-- A category node whose identity is tracked by the expansion set. -/
def catQ : TreeNode :=
  { id := "query:Q", kind := NodeKind.category PRType.Query, prs := [] }

/-- Counterexample to C5 as stated: when the category identity is
already present in the persisted set before the expand event, an
expand followed by a collapse does not restore the pre-expand set —
the identity ends up removed. -/
theorem expand_collapse_roundtrip_counterexample :
    "query:Q" ∈ (["query:Q"] : List String)
  ∧ "query:Q" ∉ updateExpandedQueries
      (updateExpandedQueries ["query:Q"] catQ true) catQ false
  ∧ updateExpandedQueries
      (updateExpandedQueries ["query:Q"] catQ true) catQ false
      ≠ ["query:Q"] := by
  decide

/-- C5 as amended: for a category node, expand followed by collapse
yields the pre-expand persisted set with the category identity removed
— hence the round trip is the identity exactly when the identity was
not already persisted — and two consecutive expands persist the same
set as one. -/
theorem expand_collapse_removes_and_expand_idempotent (q : String)
    (t : PRType) (prs : List Nat) (p : List String) :
    (∀ x, x ∈ updateExpandedQueries
        (updateExpandedQueries p ⟨q, NodeKind.category t, prs⟩ true)
        ⟨q, NodeKind.category t, prs⟩ false
      ↔ x ∈ p ∧ x ≠ q)
  ∧ updateExpandedQueries
      (updateExpandedQueries p ⟨q, NodeKind.category t, prs⟩ true)
      ⟨q, NodeKind.category t, prs⟩ true
    = updateExpandedQueries p ⟨q, NodeKind.category t, prs⟩ true := by
  have hload : loadSet (setAdd (loadSet p) q) = setAdd (loadSet p) q :=
    loadSet_of_nodup (nodup_setAdd (nodup_loadSet p))
  constructor
  · intro x
    simp only [updateExpandedQueries, Bool.false_eq_true, if_false,
      if_true, hload]
    rw [mem_setDelete, mem_setAdd, mem_loadSet]
    constructor
    · rintro ⟨hx | rfl, hne⟩
      · exact ⟨hx, hne⟩
      · exact absurd rfl hne
    · rintro ⟨hx, hne⟩
      exact ⟨Or.inl hx, hne⟩
  · simp only [updateExpandedQueries, hload, if_pos]
    exact setAdd_of_mem (mem_setAdd.mpr (Or.inr rfl))

/-- C8: `expandPullRequest` on an empty (not yet materialized) root set
performs exactly one root `getChildren` fetch before searching; it
then walks the fetched root children in order, delegating into
workspace-folder nodes and the `All` category node, and reports the
first match; when no root child represents the target it returns
normally with no match and no error. -/
theorem expandPullRequest_single_fetch_first_match (env : Env)
    (s : ProviderState) (pr : Nat) (h : s.children = []) :
    (expandPullRequest env s pr).2.rootFetches = 1
  ∧ (expandPullRequest env s pr).2.found
      = ((getChildren env s none).state.children.find?
          (fun c => nodeMatches c pr)).map TreeNode.id
  ∧ ((∀ c ∈ (getChildren env s none).state.children,
        nodeMatches c pr = false) →
      (expandPullRequest env s pr).2.found = none) := by
  have hred : expandPullRequest env s pr
      = ((getChildren env s none).state,
         ⟨1, (searchRoots pr (getChildren env s none).state.children).1,
             (searchRoots pr (getChildren env s none).state.children).2⟩) := by
    simp [expandPullRequest, h]
  refine ⟨by rw [hred], ?_, ?_⟩
  · rw [hred]
    exact searchRoots_found pr _
  · intro hnone
    have hfind : (getChildren env s none).state.children.find?
        (fun c => nodeMatches c pr) = none := by
      rw [List.find?_eq_none]
      intro x hx
      simp [hnone x hx]
    rw [hred]
    show (searchRoots pr (getChildren env s none).state.children).2 = none
    rw [searchRoots_found, hfind]
    rfl

/-- Witness for C8: an empty tree triggers exactly one root fetch, and
a target matched by no root child yields no match and no error. -/
theorem expandPullRequest_single_fetch_first_match_witness :
    (expandPullRequest sampleEnv sEmpty 9).2.rootFetches = 1
  ∧ (expandPullRequest sampleEnv sEmpty 9).2.found = none := by
  have h := expandPullRequest_single_fetch_first_match sampleEnv sEmpty 9 rfl
  exact ⟨h.1, h.2.2 (by decide)⟩

end PRView
